import Mathlib

/-!
Verification of the vuer-message-protocol core (ZData type registry,
recursive codec traversal, binary-safe text layer, message envelopes)
against its natural-language specification.

The Python sources are shallowly embedded:
* Python runtime values are the inductive `PyVal` (None, bool, int, str,
  bytes, numpy arrays, lists, tuples, string-keyed dicts, opaque objects).
* Python dicts are association lists with insertion-order update
  (`alistSet`) and first-match lookup (`alistGet`).
* Raised exceptions become `Except PyErr` results; the spec's abstract
  error kinds map onto the concrete Python exception classes
  (UnknownType = the TypeError raised by `TypeRegistry.decode`,
  CorruptPayload = the ValueError raised by numpy on a length mismatch).
* `time.time()` is a parameter `now` threaded into every factory.
-/

/-- Python exceptions that the embedded code can raise. -/
inductive PyErr where
  | typeError (msg : String)
  | valueError (msg : String)
  | keyError (msg : String)
deriving DecidableEq

/-- True exactly for the `ValueError` kind (numpy's buffer/reshape errors,
which the specification calls CorruptPayload). -/
def PyErr.isValueError : PyErr → Bool
  | .valueError _ => true
  | _ => false

/-- Numpy element types supported by the reference numeric codec. -/
inductive Dtype where
  | int8 | int16 | int32 | int64
  | uint8 | uint16 | uint32 | uint64
  | float32 | float64 | complex128
deriving DecidableEq

/-- Size of one element in bytes (`numpy.dtype.itemsize`). -/
def Dtype.itemsize : Dtype → Nat
  | .int8 => 1
  | .int16 => 2
  | .int32 => 4
  | .int64 => 8
  | .uint8 => 1
  | .uint16 => 2
  | .uint32 => 4
  | .uint64 => 8
  | .float32 => 4
  | .float64 => 8
  | .complex128 => 16

/-- The canonical dtype name produced by `str(array.dtype)`. -/
def Dtype.name : Dtype → String
  | .int8 => "int8"
  | .int16 => "int16"
  | .int32 => "int32"
  | .int64 => "int64"
  | .uint8 => "uint8"
  | .uint16 => "uint16"
  | .uint32 => "uint32"
  | .uint64 => "uint64"
  | .float32 => "float32"
  | .float64 => "float64"
  | .complex128 => "complex128"

/-- Parsing of a dtype name string, as `numpy.dtype(s)` does for the
supported element types; unknown names fail. -/
def Dtype.ofName (s : String) : Option Dtype :=
  if s = "int8" then some .int8
  else if s = "int16" then some .int16
  else if s = "int32" then some .int32
  else if s = "int64" then some .int64
  else if s = "uint8" then some .uint8
  else if s = "uint16" then some .uint16
  else if s = "uint32" then some .uint32
  else if s = "uint64" then some .uint64
  else if s = "float32" then some .float32
  else if s = "float64" then some .float64
  else if s = "complex128" then some .complex128
  else none

/-- A numpy array: element type, shape, and the raw payload bytes in C
order (as returned by `ndarray.tobytes()`).  Each entry of `data` is one
byte. -/
structure NDArray where
  dtype : Dtype
  shape : List Nat
  data : List Nat
deriving DecidableEq

/-- Python runtime types, used as keys of the exact-type encoder dict. -/
inductive PyType where
  | noneT | boolT | intT | strT | bytesT | ndarrayT | listT | tupleT | dictT
  | objT (tag : String)
deriving DecidableEq

/-- Python runtime values relevant to the protocol. `pyobj` stands for an
opaque user object of a custom class named by `tag`. -/
inductive PyVal where
  | pynone
  | pybool (b : Bool)
  | pyint (n : Int)
  | pystr (s : String)
  | pybytes (bs : List Nat)
  | pyarr (a : NDArray)
  | pylist (xs : List PyVal)
  | pytuple (xs : List PyVal)
  | pydict (kvs : List (String × PyVal))
  | pyobj (tag : String) (field : PyVal)

/-- The runtime type of a value, as `type(data)` sees it. -/
def PyVal.typeOf : PyVal → PyType
  | .pynone => .noneT
  | .pybool _ => .boolT
  | .pyint _ => .intT
  | .pystr _ => .strT
  | .pybytes _ => .bytesT
  | .pyarr _ => .ndarrayT
  | .pylist _ => .listT
  | .pytuple _ => .tupleT
  | .pydict _ => .dictT
  | .pyobj tag _ => .objT tag

/-- Test for the Python `None` value (`data is None`). -/
def PyVal.isNone : PyVal → Bool
  | .pynone => true
  | _ => false

/-- Lookup in a Python dict modelled as an association list
(`d[key]` / `key in d`): first matching key wins. -/
def alistGet {α β : Type} [DecidableEq α] : List (α × β) → α → Option β
  | [], _ => none
  | (k, v) :: rest, key => if k = key then some v else alistGet rest key

/-- Python dict assignment `d[key] = val`: an existing key keeps its
insertion position, a new key is appended at the end. -/
def alistSet {α β : Type} [DecidableEq α] : List (α × β) → α → β → List (α × β)
  | [], key, val => [(key, val)]
  | (k, v) :: rest, key, val =>
    if k = key then (key, val) :: rest else (k, v) :: alistSet rest key val

/-- Python membership test `key in d`. -/
def hasKey {α β : Type} [DecidableEq α] (l : List (α × β)) (key : α) : Bool :=
  (alistGet l key).isSome

/-- Best-effort model of Python `str()` for the f-string in the decode
error message; only the string case is exercised by registered codecs. -/
def pyStrOf : PyVal → String
  | .pystr s => s
  | .pyint n => toString n
  | .pybool true => "True"
  | .pybool false => "False"
  | .pynone => "None"
  | _ => "<object>"

/-- State of `TypeRegistry` (src/vmp-py/src/vuer_vrpc/type_registry.py):
`_encoders` maps an exact type to (type_name, encoder); `_decoders` maps a
ztype string to a decoder; `_type_checkers` is the ordered predicate list. -/
structure TypeRegistry where
  encoders : List (PyType × String × (PyVal → PyVal))
  decoders : List (String × (PyVal → Except PyErr PyVal))
  typeCheckers : List ((PyVal → Bool) × String × (PyVal → PyVal))

/-- The freshly constructed registry, `TypeRegistry.__init__`. -/
def TypeRegistry.empty : TypeRegistry :=
  { encoders := [], decoders := [], typeCheckers := [] }

/-- Embedding of `TypeRegistry.register`: store the decoder under
`type_name` (overwriting), the encoder under `type_class` when given, and
append any `type_checker` entry to the ordered predicate list.  The Python
method performs no validation of `type_name`. -/
def TypeRegistry.register (r : TypeRegistry) (type_name : String)
    (encoder : PyVal → PyVal) (decoder : PyVal → Except PyErr PyVal)
    (type_class : Option PyType) (type_checker : Option (PyVal → Bool)) :
    TypeRegistry :=
  { decoders := alistSet r.decoders type_name decoder
    encoders :=
      match type_class with
      | some t => alistSet r.encoders t (type_name, encoder)
      | none => r.encoders
    typeCheckers :=
      match type_checker with
      | some c => r.typeCheckers ++ [(c, type_name, encoder)]
      | none => r.typeCheckers }

/-- The `for checker, type_name, encoder in self._type_checkers` loop of
`TypeRegistry.encode`: return the first matching encoder's output. -/
def scanCheckers (data : PyVal) :
    List ((PyVal → Bool) × String × (PyVal → PyVal)) → Option PyVal
  | [] => none
  | (checker, _, encoder) :: rest =>
    if checker data then some (encoder data) else scanCheckers data rest

/-- Embedding of `TypeRegistry.encode`: exact-type dict lookup first, then
the ordered predicate scan, else pass the value through unchanged. -/
def TypeRegistry.encode (r : TypeRegistry) (data : PyVal) : PyVal :=
  match alistGet r.encoders data.typeOf with
  | some (_, encoder) => encoder data
  | none =>
    match scanCheckers data r.typeCheckers with
    | some result => result
    | none => data

/-- Embedding of `TypeRegistry.is_zdata` / `ZData.is_zdata`: a dict
carrying a "ztype" key (the registry argument is unused in the source). -/
def is_zdata : PyVal → Bool
  | .pydict kvs => hasKey kvs "ztype"
  | _ => false

/-- The TypeError raised by `TypeRegistry.decode` on an unregistered
ztype; the specification names this error kind UnknownType. -/
def UnknownType (z : String) : PyErr :=
  .typeError ("Unknown ZData type: " ++ z)

/-- Embedding of `TypeRegistry.decode`: non-dicts and dicts without a
"ztype" key pass through; otherwise the decoder registered under the
ztype runs, and a missing registration raises the UnknownType TypeError. -/
def TypeRegistry.decode (r : TypeRegistry) (zdata : PyVal) : Except PyErr PyVal :=
  match zdata with
  | .pydict kvs =>
    match alistGet kvs "ztype" with
    | none => .ok (.pydict kvs)
    | some ztypeVal =>
      match ztypeVal with
      | .pystr z =>
        match alistGet r.decoders z with
        | none => .error (UnknownType z)
        | some decoder => decoder (.pydict kvs)
      | other => .error (UnknownType (pyStrOf other))
  | v => .ok v

/-- Embedding of `_encode_numpy` (src/vmp-py/src/vmp_py/builtin_types.py):
the payload is `tobytes()` (the C-order bytes carried in `data`), plus the
dtype name and the shape tuple. -/
def encodeNumpy (a : NDArray) : PyVal :=
  .pydict [("ztype", .pystr "numpy.ndarray"),
           ("b", .pybytes a.data),
           ("dtype", .pystr a.dtype.name),
           ("shape", .pytuple (a.shape.map fun n => .pyint (Int.ofNat n)))]

/-- Extraction of an int sequence from Python values, for shape
arguments. -/
def intList : List PyVal → Option (List Int)
  | [] => some []
  | .pyint n :: rest => (intList rest).map fun ns => n :: ns
  | _ => none

/-- Reading a numpy shape argument: `reshape` accepts a tuple or list of
ints, or a single int. -/
def pyShape : PyVal → Option (List Int)
  | .pytuple xs => intList xs
  | .pylist xs => intList xs
  | .pyint n => some [n]
  | _ => none

/-- Model of `ndarray.reshape` on a flat array of `count` elements:
dimensions below -1 and more than one -1 are rejected; one -1 is inferred
from the remaining dimensions; otherwise the product of the dimensions
must equal `count`, else numpy raises a ValueError. -/
def reshapeDims (count : Nat) (dims : List Int) : Except PyErr (List Nat) :=
  if dims.any (fun d => d < -1) then
    .error (.valueError "negative dimensions are not allowed")
  else if 2 ≤ dims.count (-1) then
    .error (.valueError "can only specify one unknown dimension")
  else if dims.count (-1) = 1 then
    let known : Nat := (dims.filter (fun d => d ≠ -1)).foldl (fun acc d => acc * d.toNat) 1
    if known ≠ 0 ∧ count % known = 0 then
      .ok (dims.map fun d => if d = -1 then count / known else d.toNat)
    else .error (.valueError "cannot reshape array")
  else
    if dims.foldl (fun acc d => acc * d.toNat) 1 = count then
      .ok (dims.map Int.toNat)
    else .error (.valueError "cannot reshape array")

/-- Embedding of `_decode_numpy`: `np.frombuffer(b, dtype)` requires the
byte count to be a multiple of the element size (ValueError otherwise) and
yields a flat array of `len / itemsize` elements, which is then reshaped
to the declared shape.  The payload bytes are reinterpreted, never
altered. -/
def decodeNumpy (zdata : PyVal) : Except PyErr PyVal :=
  match zdata with
  | .pydict kvs =>
    match alistGet kvs "b", alistGet kvs "dtype", alistGet kvs "shape" with
    | some (.pybytes b), some (.pystr dtypeName), some shapeVal =>
      match Dtype.ofName dtypeName with
      | none => .error (.typeError ("data type '" ++ dtypeName ++ "' not understood"))
      | some dt =>
        if b.length % dt.itemsize = 0 then
          match pyShape shapeVal with
          | some dims =>
            (reshapeDims (b.length / dt.itemsize) dims).map fun resolved =>
              .pyarr { dtype := dt, shape := resolved, data := b }
          | none => .error (.typeError "shape must be a sequence of integers")
        else .error (.valueError "buffer size must be a multiple of element size")
    | _, _, _ => .error (.keyError "zdata record is missing a required field")
  | _ => .error (.typeError "zdata must be a mapping")

/-- The dispatch wrapper under which `_encode_numpy` sits in the registry:
the registered encoder is only ever invoked on values dispatched as numpy
arrays. -/
def numpyEncoderFn : PyVal → PyVal
  | .pyarr a => encodeNumpy a
  | other => other

/-- The global `TYPE_REGISTRY` after the registration performed by
builtin_types.py: numpy registered by exact type class. -/
def TYPE_REGISTRY : TypeRegistry :=
  TypeRegistry.empty.register "numpy.ndarray" numpyEncoderFn decodeNumpy
    (some .ndarrayT) none

mutual

/-- Embedding of `_recursive_encode` (src/vmp-py/src/vuer_vrpc/serializers.py):
with `greedy` false the value passes through; dicts, lists and tuples are
rebuilt entry-wise before any leaf dispatch; only non-container leaves
reach `ZData.encode` (that is, `TypeRegistry.encode` of the registry). -/
def recursiveEncode (r : TypeRegistry) (greedy : Bool) (data : PyVal) : PyVal :=
  if greedy = false then data
  else
    match data with
    | .pydict kvs => .pydict (recursiveEncodeKVs r greedy kvs)
    | .pylist xs => .pylist (recursiveEncodeList r greedy xs)
    | .pytuple xs => .pytuple (recursiveEncodeList r greedy xs)
    | leaf => r.encode leaf

/-- The list comprehension over sequence items inside `_recursive_encode`. -/
def recursiveEncodeList (r : TypeRegistry) (greedy : Bool) : List PyVal → List PyVal
  | [] => []
  | x :: xs => recursiveEncode r greedy x :: recursiveEncodeList r greedy xs

/-- The dict comprehension over entries inside `_recursive_encode`. -/
def recursiveEncodeKVs (r : TypeRegistry) (greedy : Bool) :
    List (String × PyVal) → List (String × PyVal)
  | [] => []
  | (k, v) :: rest => (k, recursiveEncode r greedy v) :: recursiveEncodeKVs r greedy rest

end

mutual

/-- Embedding of `_recursive_decode`: with `greedy` false the value passes
through; any dict carrying "ztype" is decoded as one unit via
`ZData.decode` without recursing into its fields; other dicts, lists and
tuples recurse entry-wise; a raised error aborts the whole traversal. -/
def recursiveDecode (r : TypeRegistry) (greedy : Bool) (data : PyVal) :
    Except PyErr PyVal :=
  if greedy = false then .ok data
  else if is_zdata data then r.decode data
  else
    match data with
    | .pydict kvs => do
      let decoded ← recursiveDecodeKVs r greedy kvs
      .ok (.pydict decoded)
    | .pylist xs => do
      let decoded ← recursiveDecodeList r greedy xs
      .ok (.pylist decoded)
    | .pytuple xs => do
      let decoded ← recursiveDecodeList r greedy xs
      .ok (.pytuple decoded)
    | leaf => .ok leaf

/-- The element-wise traversal of sequences inside `_recursive_decode`,
evaluated left to right, first error aborting. -/
def recursiveDecodeList (r : TypeRegistry) (greedy : Bool) :
    List PyVal → Except PyErr (List PyVal)
  | [] => .ok []
  | x :: xs => do
    let y ← recursiveDecode r greedy x
    let ys ← recursiveDecodeList r greedy xs
    .ok (y :: ys)

/-- The entry-wise traversal of dicts inside `_recursive_decode`. -/
def recursiveDecodeKVs (r : TypeRegistry) (greedy : Bool) :
    List (String × PyVal) → Except PyErr (List (String × PyVal))
  | [] => .ok []
  | (k, v) :: rest => do
    let w ← recursiveDecode r greedy v
    let ws ← recursiveDecodeKVs r greedy rest
    .ok ((k, w) :: ws)

end

/-- The ASCII code of the standard base64 alphabet character for a sextet:
A-Z, a-z, 0-9, then plus and slash. -/
def b64Ascii (n : Nat) : Nat :=
  if n < 26 then 65 + n
  else if n < 52 then 97 + (n - 26)
  else if n < 62 then 48 + (n - 52)
  else if n = 62 then 43
  else 47

/-- The base64 alphabet character for a sextet. -/
def b64Char (n : Nat) : Char := Char.ofNat (b64Ascii n)

/-- The sextet value of a base64 alphabet character; `none` for
characters outside the standard alphabet. -/
def b64Sextet (c : Char) : Option Nat :=
  let k := c.toNat
  if 65 ≤ k ∧ k ≤ 90 then some (k - 65)
  else if 97 ≤ k ∧ k ≤ 122 then some (k - 97 + 26)
  else if 48 ≤ k ∧ k ≤ 57 then some (k - 48 + 52)
  else if k = 43 then some 62
  else if k = 47 then some 63
  else none

/-- Standard base64 encoding of a byte list, three bytes per four output
characters, padded with equals signs (the stdlib `base64.b64encode`). -/
def b64EncodeChars : List Nat → List Char
  | [] => []
  | [a] => [b64Char (a / 4), b64Char (a % 4 * 16), '=', '=']
  | [a, b] => [b64Char (a / 4), b64Char (a % 4 * 16 + b / 16),
               b64Char (b % 16 * 4), '=']
  | a :: b :: c :: rest =>
    b64Char (a / 4) :: b64Char (a % 4 * 16 + b / 16) ::
    b64Char (b % 16 * 4 + c / 64) :: b64Char (c % 64) :: b64EncodeChars rest

/-- `base64.b64encode(data).decode('ascii')`: the base64 text of a byte
list. -/
def b64Encode (bs : List Nat) : String := String.mk (b64EncodeChars bs)

/-- Decoding of base64 character groups of four, with terminal padding;
a group count or padding violation raises (binascii.Error, a ValueError
subclass in Python). -/
def b64DecodeGroups : List Char → Except PyErr (List Nat)
  | [] => .ok []
  | a :: b :: c :: d :: rest =>
    match b64Sextet a, b64Sextet b with
    | some s1, some s2 =>
      if c = '=' then
        if d = '=' ∧ rest = [] then .ok [s1 * 4 + s2 / 16]
        else .error (.valueError "invalid base64-encoded string")
      else
        match b64Sextet c with
        | some s3 =>
          if d = '=' then
            if rest = [] then .ok [s1 * 4 + s2 / 16, s2 % 16 * 16 + s3 / 4]
            else .error (.valueError "invalid base64-encoded string")
          else
            match b64Sextet d with
            | some s4 => do
              let tail ← b64DecodeGroups rest
              .ok ((s1 * 4 + s2 / 16) :: (s2 % 16 * 16 + s3 / 4) ::
                   (s3 % 4 * 64 + s4) :: tail)
            | none => .error (.valueError "invalid base64-encoded string")
        | none => .error (.valueError "invalid base64-encoded string")
    | _, _ => .error (.valueError "invalid base64-encoded string")
  | _ => .error (.valueError "invalid base64-encoded string")

/-- `base64.b64decode(s)` with the default `validate=False`: characters
outside the alphabet and padding are discarded, then groups of four are
decoded. -/
def b64Decode (s : String) : Except PyErr (List Nat) :=
  b64DecodeGroups (s.data.filter fun c => (b64Sextet c).isSome || c = '=')

mutual

/-- Embedding of `JSONSerializer._bytes_to_base64`: every raw byte string
is replaced (recursively through dicts, lists and tuples) by the
single-field dict mapping "__bytes__" to its base64 text. -/
def bytesToBase64 : PyVal → PyVal
  | .pybytes bs => .pydict [("__bytes__", .pystr (b64Encode bs))]
  | .pydict kvs => .pydict (bytesToBase64KVs kvs)
  | .pylist xs => .pylist (bytesToBase64List xs)
  | .pytuple xs => .pytuple (bytesToBase64List xs)
  | other => other

/-- The list comprehension inside `_bytes_to_base64`. -/
def bytesToBase64List : List PyVal → List PyVal
  | [] => []
  | x :: xs => bytesToBase64 x :: bytesToBase64List xs

/-- The dict comprehension inside `_bytes_to_base64`. -/
def bytesToBase64KVs : List (String × PyVal) → List (String × PyVal)
  | [] => []
  | (k, v) :: rest => (k, bytesToBase64 v) :: bytesToBase64KVs rest

end

mutual

/-- Embedding of `JSONSerializer._base64_to_bytes`: any dict whose only
field is "__bytes__" is replaced by the base64-decoded bytes (b64decode
accepts only string-like input there); all other containers recurse. -/
def base64ToBytes (data : PyVal) : Except PyErr PyVal :=
  match data with
  | .pydict kvs =>
    if hasKey kvs "__bytes__" ∧ kvs.length = 1 then
      match alistGet kvs "__bytes__" with
      | some (.pystr s) => do
        let bs ← b64Decode s
        .ok (.pybytes bs)
      | _ => .error (.typeError "argument should be a bytes-like object or ASCII string")
    else do
      let converted ← base64ToBytesKVs kvs
      .ok (.pydict converted)
  | .pylist xs => do
    let converted ← base64ToBytesList xs
    .ok (.pylist converted)
  | .pytuple xs => do
    let converted ← base64ToBytesList xs
    .ok (.pytuple converted)
  | other => .ok other

/-- The list comprehension inside `_base64_to_bytes`. -/
def base64ToBytesList : List PyVal → Except PyErr (List PyVal)
  | [] => .ok []
  | x :: xs => do
    let y ← base64ToBytes x
    let ys ← base64ToBytesList xs
    .ok (y :: ys)

/-- The dict comprehension inside `_base64_to_bytes`. -/
def base64ToBytesKVs : List (String × PyVal) → Except PyErr (List (String × PyVal))
  | [] => .ok []
  | (k, v) :: rest => do
    let w ← base64ToBytes v
    let ws ← base64ToBytesKVs rest
    .ok ((k, w) :: ws)

end

/-- The idiom `ts or current_timestamp()` shared by every factory: a
caller timestamp is tested by truthiness, so both `None` and `0` fall
back to the current time `now`, while any other integer is kept. -/
def tsOr (ts : Option Int) (now : Int) : Int :=
  match ts with
  | none => now
  | some t => if t = 0 then now else t

/-- Embedding of `set_event` (src/vmp-py/src/vmp_py/events.py). -/
def set_event (scene : PyVal) (ts : Option Int) (now : Int) : PyVal :=
  .pydict [("ts", .pyint (tsOr ts now)),
           ("etype", .pystr "SET"),
           ("data", scene)]

/-- Embedding of `add_event`: the Python default `to="children"` is
modelled by an `Option String` that is `none` when the caller omits the
argument. -/
def add_event (nodes : List PyVal) (to_ : Option String) (ts : Option Int)
    (now : Int) : PyVal :=
  .pydict [("ts", .pyint (tsOr ts now)),
           ("etype", .pystr "ADD"),
           ("data", .pydict [("nodes", .pylist nodes),
                             ("to", .pystr (to_.getD "children"))])]

/-- Embedding of `update_event`. -/
def update_event (nodes : List PyVal) (ts : Option Int) (now : Int) : PyVal :=
  .pydict [("ts", .pyint (tsOr ts now)),
           ("etype", .pystr "UPDATE"),
           ("data", .pydict [("nodes", .pylist nodes)])]

/-- Embedding of `upsert_event`, with the `to` default modelled as in
`add_event`. -/
def upsert_event (nodes : List PyVal) (to_ : Option String) (ts : Option Int)
    (now : Int) : PyVal :=
  .pydict [("ts", .pyint (tsOr ts now)),
           ("etype", .pystr "UPSERT"),
           ("data", .pydict [("nodes", .pylist nodes),
                             ("to", .pystr (to_.getD "children"))])]

/-- Embedding of `remove_event`. -/
def remove_event (keys : List String) (ts : Option Int) (now : Int) : PyVal :=
  .pydict [("ts", .pyint (tsOr ts now)),
           ("etype", .pystr "REMOVE"),
           ("data", .pydict [("keys", .pylist (keys.map .pystr))])]

/-- Embedding of `timeout_event`; the float `timeout` argument is carried
verbatim into the payload, so it is taken as an opaque `PyVal`. -/
def timeout_event (timeout : PyVal) (fn : String) (ts : Option Int)
    (now : Int) : PyVal :=
  .pydict [("ts", .pyint (tsOr ts now)),
           ("etype", .pystr "TIMEOUT"),
           ("data", .pydict [("timeout", timeout), ("fn", .pystr fn)])]

/-- Embedding of `create_client_event`
(src/vmp-py/src/vmp_py/types.py): the base dict carries ts and etype, and
value, key and rtype are appended only when not `None`. -/
def create_client_event (etype : String) (value : PyVal) (key : Option String)
    (rtype : Option String) (ts : Option Int) (now : Int) : PyVal :=
  .pydict ([("ts", .pyint (tsOr ts now)), ("etype", .pystr etype)]
    ++ (if value.isNone then [] else [("value", value)])
    ++ (match key with
        | some k => [("key", PyVal.pystr k)]
        | none => [])
    ++ (match rtype with
        | some rt => [("rtype", PyVal.pystr rt)]
        | none => []))

/-- Embedding of `create_server_event`. -/
def create_server_event (etype : String) (data : PyVal) (ts : Option Int)
    (now : Int) : PyVal :=
  .pydict [("ts", .pyint (tsOr ts now)),
           ("etype", .pystr etype),
           ("data", data)]

/-- Embedding of `create_rpc_request`: args, kwargs and uuid are appended
only when not `None`. -/
def create_rpc_request (etype : String) (rtype : String)
    (args : Option (List PyVal)) (kwargs : Option (List (String × PyVal)))
    (uuid : Option String) (ts : Option Int) (now : Int) : PyVal :=
  .pydict ([("ts", .pyint (tsOr ts now)),
            ("etype", .pystr etype),
            ("rtype", .pystr rtype)]
    ++ (match args with
        | some xs => [("args", PyVal.pylist xs)]
        | none => [])
    ++ (match kwargs with
        | some kw => [("kwargs", PyVal.pydict kw)]
        | none => [])
    ++ (match uuid with
        | some u => [("uuid", PyVal.pystr u)]
        | none => []))

/-- Embedding of `create_rpc_response`: ts, etype, ok and error are always
present (error possibly `None`); data and value are each appended exactly
when the corresponding argument is not `None`. -/
def create_rpc_response (etype : String) (data : PyVal) (value : PyVal)
    (ok : Bool) (error : Option String) (ts : Option Int) (now : Int) : PyVal :=
  .pydict ([("ts", .pyint (tsOr ts now)),
            ("etype", .pystr etype),
            ("ok", .pybool ok),
            ("error", match error with
                      | some e => PyVal.pystr e
                      | none => PyVal.pynone)]
    ++ (if data.isNone then [] else [("data", data)])
    ++ (if value.isNone then [] else [("value", value)]))

/-- Field access on an envelope message: the entry stored under `k`. -/
def msgGet (m : PyVal) (k : String) : Option PyVal :=
  match m with
  | .pydict kvs => alistGet kvs k
  | _ => none

theorem scanCheckers_eq_none (data : PyVal)
    (l : List ((PyVal → Bool) × String × (PyVal → PyVal)))
    (h : ∀ e ∈ l, e.1 data = false) : scanCheckers data l = none := by
  induction l with
  | nil => rfl
  | cons e rest ih =>
    obtain ⟨c, tn, enc⟩ := e
    have hc : c data = false := h _ (List.mem_cons_self _ _)
    simp only [scanCheckers, hc, Bool.false_eq_true, if_false]
    exact ih fun e he => h e (List.mem_cons_of_mem _ he)

theorem scanCheckers_eq_first (data : PyVal)
    (l : List ((PyVal → Bool) × String × (PyVal → PyVal)))
    (i : Nat) (hi : i < l.length)
    (htrue : (l.get ⟨i, hi⟩).1 data = true)
    (hbefore : ∀ j (hj : j < i), (l.get ⟨j, Nat.lt_trans hj hi⟩).1 data = false) :
    scanCheckers data l = some ((l.get ⟨i, hi⟩).2.2 data) := by
  induction l generalizing i with
  | nil => exact absurd hi (by simp)
  | cons e rest ih =>
    obtain ⟨c, tn, enc⟩ := e
    cases i with
    | zero =>
      simp only [List.get] at htrue ⊢
      simp only [scanCheckers, htrue, if_true]
    | succ i' =>
      have h0 : c data = false := hbefore 0 (Nat.succ_pos _)
      simp only [scanCheckers, h0, Bool.false_eq_true, if_false]
      have hi' : i' < rest.length := Nat.lt_of_succ_lt_succ hi
      have := ih i' hi' htrue
        (fun j hj => hbefore (j + 1) (Nat.succ_lt_succ hj))
      simpa using this

/-- C1: `TypeRegistry.encode` dispatches in the fixed order: a registered
exact-runtime-type encoder first; otherwise the encoder of the first
predicate (in registration order) returning true; otherwise the value is
returned unchanged.  Dispatch is a pure function of the registry and the
input, so identical registration sequences give identical dispatch. -/
theorem c1_encode_dispatch_order (r : TypeRegistry) (data : PyVal) :
    (∀ tn enc, alistGet r.encoders data.typeOf = some (tn, enc) →
      r.encode data = enc data)
  ∧ (alistGet r.encoders data.typeOf = none →
      ∀ i (hi : i < r.typeCheckers.length),
        (r.typeCheckers.get ⟨i, hi⟩).1 data = true →
        (∀ j (hj : j < i),
          (r.typeCheckers.get ⟨j, Nat.lt_trans hj hi⟩).1 data = false) →
        r.encode data = (r.typeCheckers.get ⟨i, hi⟩).2.2 data)
  ∧ (alistGet r.encoders data.typeOf = none →
      (∀ e ∈ r.typeCheckers, e.1 data = false) →
      r.encode data = data) := by
  refine ⟨?_, ?_, ?_⟩
  · intro tn enc hexact
    simp only [TypeRegistry.encode, hexact]
  · intro hnone i hi htrue hbefore
    simp only [TypeRegistry.encode, hnone,
      scanCheckers_eq_first data r.typeCheckers i hi htrue hbefore]
  · intro hnone hfalse
    simp only [TypeRegistry.encode, hnone,
      scanCheckers_eq_none data r.typeCheckers hfalse]

/-- A registry exercising all three dispatch paths: ints by exact type,
strings by predicate. -/
def c1Reg : TypeRegistry :=
  (TypeRegistry.empty.register "tag.int" (fun _ => .pystr "viaExact")
      (fun v => .ok v) (some .intT) none).register "tag.str"
    (fun _ => .pystr "viaPred") (fun v => .ok v) none
    (some fun v => match v with | .pystr _ => true | _ => false)

/-- Witness for C1: all three dispatch branches at concrete inputs. -/
theorem c1_encode_dispatch_order_witness :
    TypeRegistry.encode c1Reg (.pyint 3) = .pystr "viaExact"
  ∧ TypeRegistry.encode c1Reg (.pystr "x") = .pystr "viaPred"
  ∧ TypeRegistry.encode c1Reg .pynone = .pynone := by
  refine ⟨?_, ?_, ?_⟩
  · exact (c1_encode_dispatch_order c1Reg (.pyint 3)).1 "tag.int" _ rfl
  · exact (c1_encode_dispatch_order c1Reg (.pystr "x")).2.1 rfl 0 (by decide)
      rfl (fun j hj => absurd hj (Nat.not_lt_zero j))
  · refine (c1_encode_dispatch_order c1Reg .pynone).2.2 rfl ?_
    intro e he
    have hmem : e ∈ [(fun v => match v with
        | PyVal.pystr _ => true
        | _ => false, "tag.str", fun _ => PyVal.pystr "viaPred")] := he
    rw [List.mem_singleton.mp hmem]

/-- C2: `TypeRegistry.decode` passes any value that is not a
ztype-carrying mapping through unchanged; on a ztype-carrying mapping it
raises the UnknownType TypeError when no decoder is registered for that
ztype, and otherwise returns the registered decoder's result. -/
theorem c2_decode_behavior (r : TypeRegistry) (v : PyVal) :
    (is_zdata v = false → r.decode v = .ok v)
  ∧ (∀ kvs z, v = .pydict kvs → alistGet kvs "ztype" = some (.pystr z) →
      (alistGet r.decoders z = none → r.decode v = .error (UnknownType z))
    ∧ (∀ dec, alistGet r.decoders z = some dec → r.decode v = dec v)) := by
  constructor
  · intro hnz
    cases v with
    | pydict kvs =>
      cases halist : alistGet kvs "ztype" with
      | none => simp only [TypeRegistry.decode, halist]
      | some w =>
        exfalso
        simp only [is_zdata, hasKey, halist, Option.isSome_some] at hnz
        cases hnz
    | pynone => rfl
    | pybool b => rfl
    | pyint n => rfl
    | pystr s => rfl
    | pybytes bs => rfl
    | pyarr a => rfl
    | pylist xs => rfl
    | pytuple xs => rfl
    | pyobj tag f => rfl
  · intro kvs z hv hz
    subst hv
    constructor
    · intro hmiss
      simp only [TypeRegistry.decode, hz, hmiss]
    · intro dec hdec
      simp only [TypeRegistry.decode, hz, hdec]

/-- A registry with one registered ztype for the C2 witness. -/
def c2Reg : TypeRegistry :=
  TypeRegistry.empty.register "t" (fun v => v) (fun _ => .ok (.pystr "decoded"))
    none none

/-- Witness for C2: pass-through, UnknownType failure and decoder
invocation at concrete inputs. -/
theorem c2_decode_behavior_witness :
    TypeRegistry.decode c2Reg (.pyint 5) = .ok (.pyint 5)
  ∧ TypeRegistry.decode c2Reg (.pydict [("ztype", .pystr "not.registered")])
      = .error (UnknownType "not.registered")
  ∧ TypeRegistry.decode c2Reg (.pydict [("ztype", .pystr "t")])
      = .ok (.pystr "decoded") := by
  refine ⟨?_, ?_, ?_⟩
  · exact (c2_decode_behavior c2Reg (.pyint 5)).1 rfl
  · exact ((c2_decode_behavior c2Reg
      (.pydict [("ztype", .pystr "not.registered")])).2
      [("ztype", .pystr "not.registered")] "not.registered" rfl rfl).1 rfl
  · exact ((c2_decode_behavior c2Reg (.pydict [("ztype", .pystr "t")])).2
      [("ztype", .pystr "t")] "t" rfl rfl).2 _ rfl

theorem alistGet_alistSet {α β : Type} [DecidableEq α]
    (l : List (α × β)) (k : α) (v : β) (z : α) :
    alistGet (alistSet l k v) z = if z = k then some v else alistGet l z := by
  induction l with
  | nil =>
    by_cases hz : z = k
    · subst hz
      simp [alistSet, alistGet]
    · have hz' : ¬k = z := fun h => hz h.symm
      simp [alistSet, alistGet, hz, hz']
  | cons e rest ih =>
    obtain ⟨k', v'⟩ := e
    by_cases hk : k' = k
    · subst hk
      by_cases hz : z = k'
      · subst hz
        simp [alistSet, alistGet]
      · have hz' : ¬k' = z := fun h => hz h.symm
        simp [alistSet, alistGet, hz, hz']
    · by_cases hz : z = k'
      · subst hz
        simp [alistSet, alistGet, hk]
      · have hz' : ¬k' = z := fun h => hz h.symm
        simp [alistSet, alistGet, hk, hz, hz', ih]

/-- C7 counterexample: `register` with the empty ztype does not fail; it
returns a registry in which the empty string is a registered ztype whose
decoder is subsequently used by `decode`. -/
theorem c7_register_empty_counterexample :
    hasKey ((TypeRegistry.empty.register "" (fun v => v)
        (fun _ => .ok (.pystr "emptyOk")) none none)).decoders "" = true
  ∧ TypeRegistry.decode
      (TypeRegistry.empty.register "" (fun v => v)
        (fun _ => .ok (.pystr "emptyOk")) none none)
      (.pydict [("ztype", .pystr "")]) = .ok (.pystr "emptyOk") := ⟨rfl, rfl⟩

/-- C7 amended: `register` performs no validation of the ztype and always
succeeds — for every ztype including the empty string it stores the
decoder under the ztype (overwriting any previous entry), stores the
encoder under the exact type when one is given, and appends any predicate
entry to the ordered list. -/
theorem c7_register_always_succeeds (r : TypeRegistry) (tn : String)
    (enc : PyVal → PyVal) (dec : PyVal → Except PyErr PyVal)
    (tc : Option PyType) (pred : Option (PyVal → Bool)) :
    (∀ z, alistGet (r.register tn enc dec tc pred).decoders z
        = if z = tn then some dec else alistGet r.decoders z)
  ∧ (r.register tn enc dec tc pred).encoders
      = (match tc with
         | some t => alistSet r.encoders t (tn, enc)
         | none => r.encoders)
  ∧ (r.register tn enc dec tc pred).typeCheckers
      = (match pred with
         | some c => r.typeCheckers ++ [(c, tn, enc)]
         | none => r.typeCheckers) := by
  refine ⟨?_, rfl, rfl⟩
  intro z
  exact alistGet_alistSet r.decoders tn dec z

theorem recursiveEncodeList_eq_map (r : TypeRegistry) (greedy : Bool)
    (xs : List PyVal) :
    recursiveEncodeList r greedy xs = xs.map (recursiveEncode r greedy) := by
  induction xs with
  | nil => rfl
  | cons x rest ih => simp [recursiveEncodeList, ih]

theorem recursiveEncodeKVs_eq_map (r : TypeRegistry) (greedy : Bool)
    (kvs : List (String × PyVal)) :
    recursiveEncodeKVs r greedy kvs
      = kvs.map fun kv => (kv.1, recursiveEncode r greedy kv.2) := by
  induction kvs with
  | nil => rfl
  | cons kv rest ih =>
    obtain ⟨k, v⟩ := kv
    simp [recursiveEncodeKVs, ih]

theorem recursiveDecodeList_eq_mapM (r : TypeRegistry) (greedy : Bool)
    (xs : List PyVal) :
    recursiveDecodeList r greedy xs = xs.mapM (recursiveDecode r greedy) := by
  induction xs with
  | nil => rfl
  | cons x rest ih =>
    rw [List.mapM_cons]
    simp only [recursiveDecodeList, ih]
    rfl

/-- C4: during recursive traversal the container check always precedes
leaf dispatch — `_recursive_encode` rebuilds every mapping with the same
keys and every sequence with the same length and order, for every
registry, so even a mapping or sequence satisfying a registered predicate
is never handed to a leaf encoder (only a direct `TypeRegistry.encode`
call dispatches it, last two conjuncts); `_recursive_decode`,
asymmetrically, short-circuits at any mapping carrying "ztype", decoding
it as one unit via the facade without recursing into it, while sequences
always recurse element-wise. -/
theorem c4_traversal_asymmetry (r : TypeRegistry)
    (kvs : List (String × PyVal)) (xs ys : List PyVal) (w : PyVal) :
    recursiveEncode r true (.pydict kvs)
      = .pydict (kvs.map fun kv => (kv.1, recursiveEncode r true kv.2))
  ∧ recursiveEncode r true (.pylist xs)
      = .pylist (xs.map (recursiveEncode r true))
  ∧ recursiveEncode r true (.pytuple xs)
      = .pytuple (xs.map (recursiveEncode r true))
  ∧ (hasKey kvs "ztype" = true →
      recursiveDecode r true (.pydict kvs) = r.decode (.pydict kvs))
  ∧ (hasKey kvs "ztype" = false →
      recursiveDecode r true (.pydict kvs)
        = (recursiveDecodeKVs r true kvs).map PyVal.pydict)
  ∧ recursiveDecode r true (.pylist ys)
      = (ys.mapM (recursiveDecode r true)).map PyVal.pylist
  ∧ (alistGet r.encoders .dictT = none →
      scanCheckers (.pydict kvs) r.typeCheckers = some w →
      r.encode (.pydict kvs) = w)
  ∧ (alistGet r.encoders .listT = none →
      scanCheckers (.pylist xs) r.typeCheckers = some w →
      r.encode (.pylist xs) = w) := by
  refine ⟨?_, ?_, ?_, ?_, ?_, ?_, ?_, ?_⟩
  · rw [recursiveEncode]
    simp [recursiveEncodeKVs_eq_map]
  · rw [recursiveEncode]
    simp [recursiveEncodeList_eq_map]
  · rw [recursiveEncode]
    simp [recursiveEncodeList_eq_map]
  · intro hz
    rw [recursiveDecode]
    simp only [is_zdata, hz, if_true]
    rfl
  · intro hz
    rw [recursiveDecode]
    simp only [is_zdata, hz, Bool.false_eq_true, if_false]
    cases hk : recursiveDecodeKVs r true kvs <;>
      simp [Except.map, bind, Except.bind, hk]
  · rw [recursiveDecode]
    simp only [is_zdata, Bool.false_eq_true, if_false]
    rw [← recursiveDecodeList_eq_mapM]
    cases hk : recursiveDecodeList r true ys <;>
      simp [Except.map, bind, Except.bind, hk]
  · intro hnone hscan
    simp only [TypeRegistry.encode]
    have ht : (PyVal.pydict kvs).typeOf = PyType.dictT := rfl
    rw [ht, hnone, hscan]
  · intro hnone hscan
    simp only [TypeRegistry.encode]
    have ht : (PyVal.pylist xs).typeOf = PyType.listT := rfl
    rw [ht, hnone, hscan]

/-- A registry whose predicate matches every mapping and every sequence,
to witness that recursive traversal still treats them as containers. -/
def c4Reg : TypeRegistry :=
  TypeRegistry.empty.register "tag.container" (fun _ => .pystr "LEAF")
    (fun v => .ok v) none
    (some fun v => match v with
      | .pydict _ => true
      | .pylist _ => true
      | _ => false)

/-- Witness for C4: with a predicate matching mappings and sequences, the
recursive walk still rebuilds them (and short-circuits decode at a ztype
record), while a direct encode call dispatches them as leaves. -/
theorem c4_traversal_asymmetry_witness :
    recursiveEncode c4Reg true (.pydict [("a", .pyint 1)])
      = .pydict ([("a", .pyint 1)].map fun kv =>
          (kv.1, recursiveEncode c4Reg true kv.2))
  ∧ recursiveEncode c4Reg true (.pylist [.pyint 1])
      = .pylist ([PyVal.pyint 1].map (recursiveEncode c4Reg true))
  ∧ recursiveEncode c4Reg true (.pytuple [.pyint 1])
      = .pytuple ([PyVal.pyint 1].map (recursiveEncode c4Reg true))
  ∧ recursiveDecode c4Reg true (.pydict [("ztype", .pystr "z")])
      = c4Reg.decode (.pydict [("ztype", .pystr "z")])
  ∧ recursiveDecode c4Reg true (.pydict [("a", .pyint 1)])
      = (recursiveDecodeKVs c4Reg true [("a", .pyint 1)]).map PyVal.pydict
  ∧ recursiveDecode c4Reg true (.pylist [.pyint 1])
      = ([PyVal.pyint 1].mapM (recursiveDecode c4Reg true)).map PyVal.pylist
  ∧ c4Reg.encode (.pydict [("a", .pyint 1)]) = .pystr "LEAF"
  ∧ c4Reg.encode (.pylist [.pyint 1]) = .pystr "LEAF" := by
  have h1 := c4_traversal_asymmetry c4Reg [("a", .pyint 1)] [.pyint 1]
    [.pyint 1] (.pystr "LEAF")
  have h2 := c4_traversal_asymmetry c4Reg [("ztype", .pystr "z")] [.pyint 1]
    [.pyint 1] (.pystr "LEAF")
  exact ⟨h1.1, h1.2.1, h1.2.2.1, h2.2.2.2.1 rfl, h1.2.2.2.2.1 rfl,
    h1.2.2.2.2.2.1, h1.2.2.2.2.2.2.1 rfl rfl, h1.2.2.2.2.2.2.2 rfl rfl⟩

theorem dtype_ofName_name (d : Dtype) : Dtype.ofName d.name = some d := by
  cases d <;> decide

theorem itemsize_pos (d : Dtype) : 0 < d.itemsize := by
  cases d <;> decide

theorem intList_map_ofNat (shape : List Nat) :
    intList (shape.map fun n => .pyint (Int.ofNat n))
      = some (shape.map Int.ofNat) := by
  induction shape with
  | nil => rfl
  | cons n rest ih =>
    simp only [List.map_cons, intList, ih, Option.map_some']

theorem reshapeDims_nat (count : Nat) (shape : List Nat) :
    reshapeDims count (shape.map Int.ofNat)
      = if shape.prod = count then .ok shape
        else .error (.valueError "cannot reshape array") := by
  have hany : ((shape.map Int.ofNat).any fun d => decide (d < -1)) = false := by
    rw [List.any_eq_false]
    intro d hd
    obtain ⟨n, hn, rfl⟩ := List.mem_map.mp hd
    simp only [decide_eq_true_eq]
    intro hlt
    rw [Int.ofNat_eq_coe] at hlt
    omega
  have hmem : (-1 : Int) ∉ shape.map Int.ofNat := by
    intro hmem
    obtain ⟨n, _, hn⟩ := List.mem_map.mp hmem
    have h0 : (0 : Int) ≤ Int.ofNat n := Int.ofNat_nonneg n
    rw [hn] at h0
    exact absurd h0 (by decide)
  have hcount : (shape.map Int.ofNat).count (-1) = 0 :=
    List.count_eq_zero.mpr hmem
  have hfold : (shape.map Int.ofNat).foldl (fun acc d => acc * d.toNat) 1
      = shape.prod := by
    have hfun : (fun (x : Nat) (y : Nat) => x * (Int.ofNat y).toNat)
        = fun x y => x * y := by
      funext x y
      rfl
    rw [List.foldl_map, List.prod_eq_foldl, hfun]
  have hback : (shape.map Int.ofNat).map Int.toNat = shape := by
    rw [List.map_map]
    have hcomp : Int.toNat ∘ Int.ofNat = id := funext fun n => rfl
    rw [hcomp, List.map_id]
  rw [reshapeDims]
  rw [hany, hcount]
  simp only [Bool.false_eq_true, if_false]
  rw [if_neg (by omega), if_neg (by omega), hfold, hback]

/-- C3: for every numpy array over the supported element types, decoding
the encoded record reproduces the array exactly: bit-identical payload
bytes, the same dtype, the same shape, the same (C-order) element
sequence.  The hypothesis states that the payload length of a real array
equals the element count times the element size. -/
theorem c3_numpy_roundtrip (a : NDArray)
    (h : a.data.length = a.shape.prod * a.dtype.itemsize) :
    decodeNumpy (encodeNumpy a) = .ok (.pyarr a) := by
  have hpos : 0 < a.dtype.itemsize := itemsize_pos a.dtype
  have hmod : a.data.length % a.dtype.itemsize = 0 := by
    rw [h]
    exact Nat.mul_mod_left _ _
  have hdiv : a.data.length / a.dtype.itemsize = a.shape.prod := by
    rw [h]
    exact Nat.mul_div_cancel _ hpos
  simp only [encodeNumpy, decodeNumpy, alistGet, if_neg, if_pos,
    String.reduceEq, reduceCtorEq, reduceIte]
  rw [dtype_ofName_name]
  simp only [hmod, if_pos rfl]
  simp only [pyShape, intList_map_ofNat]
  rw [hdiv, reshapeDims_nat]
  simp [Except.map]

/-- Witness for C3: a 2 by 2 float32 array with a 16-byte payload decodes
back to itself. -/
theorem c3_numpy_roundtrip_witness :
    decodeNumpy (encodeNumpy ⟨.float32, [2, 2], List.replicate 16 0⟩)
      = .ok (.pyarr ⟨.float32, [2, 2], List.replicate 16 0⟩) :=
  c3_numpy_roundtrip ⟨.float32, [2, 2], List.replicate 16 0⟩ (by decide)

/-- C6: a record whose declared shape and dtype disagree with the payload
length (payload byte count different from the product of the declared
dimensions times the element size) makes the numeric decoder fail with
numpy's ValueError (the spec's CorruptPayload) instead of reinterpreting
out of bounds. -/
theorem c6_corrupt_payload (dt : Dtype) (shape : List Nat) (b : List Nat)
    (hmis : b.length ≠ shape.prod * dt.itemsize) :
    ∃ msg, decodeNumpy (.pydict
        [("ztype", .pystr "numpy.ndarray"),
         ("b", .pybytes b),
         ("dtype", .pystr dt.name),
         ("shape", .pytuple (shape.map fun n => .pyint (Int.ofNat n)))])
      = .error (.valueError msg) := by
  by_cases hmod : b.length % dt.itemsize = 0
  · have hne : shape.prod ≠ b.length / dt.itemsize := by
      intro he
      apply hmis
      have hdvd : dt.itemsize ∣ b.length := Nat.dvd_of_mod_eq_zero hmod
      rw [he, Nat.div_mul_cancel hdvd]
    refine ⟨"cannot reshape array", ?_⟩
    simp only [decodeNumpy, alistGet, String.reduceEq, reduceCtorEq,
      reduceIte]
    rw [dtype_ofName_name]
    simp only [hmod, if_pos rfl]
    simp only [pyShape, intList_map_ofNat]
    rw [reshapeDims_nat, if_neg hne]
    rfl
  · refine ⟨"buffer size must be a multiple of element size", ?_⟩
    simp only [decodeNumpy, alistGet, String.reduceEq, reduceCtorEq,
      reduceIte]
    rw [dtype_ofName_name]
    simp only [eq_false hmod, if_false]

/-- Witness for C6: two payload bytes against a declared int16 shape of
three elements (which would need six bytes) fail with a ValueError. -/
theorem c6_corrupt_payload_witness :
    ∃ msg, decodeNumpy (.pydict
        [("ztype", .pystr "numpy.ndarray"),
         ("b", .pybytes [0, 0]),
         ("dtype", .pystr Dtype.int16.name),
         ("shape", .pytuple ([3].map fun n => PyVal.pyint (Int.ofNat n)))])
      = .error (.valueError msg) :=
  c6_corrupt_payload .int16 [3] [0, 0] (by decide)

theorem b64Sextet_b64Char : ∀ n, n < 64 → b64Sextet (b64Char n) = some n := by
  decide

theorem b64Char_ne_pad : ∀ n, n < 64 → b64Char n ≠ '=' := by
  decide

theorem filter_b64EncodeChars : ∀ bs : List Nat, (∀ x ∈ bs, x < 256) →
    (b64EncodeChars bs).filter (fun c => (b64Sextet c).isSome || c = '=')
      = b64EncodeChars bs := by
  intro bs
  induction bs using b64EncodeChars.induct with
  | case1 =>
    intro h
    rfl
  | case2 a =>
    intro h
    have ha : a < 256 := h a (by simp)
    have e1 := b64Sextet_b64Char (a / 4) (by omega)
    have e2 := b64Sextet_b64Char (a % 4 * 16) (by omega)
    simp [b64EncodeChars, List.filter, e1, e2]
  | case3 a b =>
    intro h
    have ha : a < 256 := h a (by simp)
    have hb : b < 256 := h b (by simp)
    have e1 := b64Sextet_b64Char (a / 4) (by omega)
    have e2 := b64Sextet_b64Char (a % 4 * 16 + b / 16) (by omega)
    have e3 := b64Sextet_b64Char (b % 16 * 4) (by omega)
    simp [b64EncodeChars, List.filter, e1, e2, e3]
  | case4 a b c rest ih =>
    intro h
    have ha : a < 256 := h a (by simp)
    have hb : b < 256 := h b (by simp)
    have hc : c < 256 := h c (by simp)
    have e1 := b64Sextet_b64Char (a / 4) (by omega)
    have e2 := b64Sextet_b64Char (a % 4 * 16 + b / 16) (by omega)
    have e3 := b64Sextet_b64Char (b % 16 * 4 + c / 64) (by omega)
    have e4 := b64Sextet_b64Char (c % 64) (by omega)
    have hrest : ∀ x ∈ rest, x < 256 := fun x hx => h x (by simp [hx])
    simp [b64EncodeChars, List.filter, e1, e2, e3, e4, ih hrest]

theorem b64DecodeGroups_encode : ∀ bs : List Nat, (∀ x ∈ bs, x < 256) →
    b64DecodeGroups (b64EncodeChars bs) = .ok bs := by
  intro bs
  induction bs using b64EncodeChars.induct with
  | case1 =>
    intro h
    rfl
  | case2 a =>
    intro h
    have ha : a < 256 := h a (by simp)
    have e1 := b64Sextet_b64Char (a / 4) (by omega)
    have e2 := b64Sextet_b64Char (a % 4 * 16) (by omega)
    simp only [b64EncodeChars, b64DecodeGroups, e1, e2]
    simp only [if_true, and_self]
    have hval : a / 4 * 4 + a % 4 * 16 / 16 = a := by omega
    rw [hval]
  | case3 a b =>
    intro h
    have ha : a < 256 := h a (by simp)
    have hb : b < 256 := h b (by simp)
    have e1 := b64Sextet_b64Char (a / 4) (by omega)
    have e2 := b64Sextet_b64Char (a % 4 * 16 + b / 16) (by omega)
    have e3 := b64Sextet_b64Char (b % 16 * 4) (by omega)
    have hp3 := b64Char_ne_pad (b % 16 * 4) (by omega)
    simp only [b64EncodeChars, b64DecodeGroups, e1, e2]
    rw [if_neg hp3]
    simp only [e3]
    simp only [if_true]
    have hv1 : a / 4 * 4 + (a % 4 * 16 + b / 16) / 16 = a := by omega
    have hv2 : (a % 4 * 16 + b / 16) % 16 * 16 + b % 16 * 4 / 4 = b := by omega
    rw [hv1, hv2]
  | case4 a b c rest ih =>
    intro h
    have ha : a < 256 := h a (by simp)
    have hb : b < 256 := h b (by simp)
    have hc : c < 256 := h c (by simp)
    have e1 := b64Sextet_b64Char (a / 4) (by omega)
    have e2 := b64Sextet_b64Char (a % 4 * 16 + b / 16) (by omega)
    have e3 := b64Sextet_b64Char (b % 16 * 4 + c / 64) (by omega)
    have e4 := b64Sextet_b64Char (c % 64) (by omega)
    have hp3 := b64Char_ne_pad (b % 16 * 4 + c / 64) (by omega)
    have hp4 := b64Char_ne_pad (c % 64) (by omega)
    have hrest : ∀ x ∈ rest, x < 256 := fun x hx => h x (by simp [hx])
    simp only [b64EncodeChars, b64DecodeGroups, e1, e2]
    rw [if_neg hp3]
    simp only [e3]
    rw [if_neg hp4]
    simp only [e4, ih hrest]
    have hv1 : a / 4 * 4 + (a % 4 * 16 + b / 16) / 16 = a := by omega
    have hv2 : (a % 4 * 16 + b / 16) % 16 * 16 + (b % 16 * 4 + c / 64) / 4
        = b := by omega
    have hv3 : (b % 16 * 4 + c / 64) % 4 * 64 + c % 64 = c := by omega
    rw [hv1, hv2, hv3]
    rfl

theorem b64Decode_b64Encode (bs : List Nat) (h : ∀ x ∈ bs, x < 256) :
    b64Decode (b64Encode bs) = .ok bs := by
  rw [b64Decode, b64Encode]
  have hstr : (String.mk (b64EncodeChars bs)).data = b64EncodeChars bs := rfl
  rw [hstr, filter_b64EncodeChars bs h, b64DecodeGroups_encode bs h]

mutual

/-- Values safe for the binary-safe text layer: byte entries are real
bytes, and no application mapping already has "__bytes__" as its only
field (the spec's documented marker-collision limitation). -/
def jsonSafe : PyVal → Bool
  | .pybytes bs => bs.all fun x => x < 256
  | .pydict kvs => (!(hasKey kvs "__bytes__" && kvs.length == 1)) && jsonSafeKVs kvs
  | .pylist xs => jsonSafeList xs
  | .pytuple xs => jsonSafeList xs
  | _ => true

/-- `jsonSafe` over sequence elements. -/
def jsonSafeList : List PyVal → Bool
  | [] => true
  | x :: xs => jsonSafe x && jsonSafeList xs

/-- `jsonSafe` over mapping entries. -/
def jsonSafeKVs : List (String × PyVal) → Bool
  | [] => true
  | (_, v) :: rest => jsonSafe v && jsonSafeKVs rest

end

theorem length_bytesToBase64KVs (kvs : List (String × PyVal)) :
    (bytesToBase64KVs kvs).length = kvs.length := by
  induction kvs with
  | nil => rfl
  | cons kv rest ih =>
    obtain ⟨k, v⟩ := kv
    simp [bytesToBase64KVs, ih]

theorem hasKey_bytesToBase64KVs (kvs : List (String × PyVal)) (z : String) :
    hasKey (bytesToBase64KVs kvs) z = hasKey kvs z := by
  induction kvs with
  | nil => rfl
  | cons kv rest ih =>
    obtain ⟨k, v⟩ := kv
    by_cases hk : k = z
    · subst hk
      simp [bytesToBase64KVs, hasKey, alistGet]
    · simp only [bytesToBase64KVs, hasKey, alistGet, if_neg hk]
      exact ih

mutual

theorem wrapUnwrapVal (v : PyVal) (h : jsonSafe v = true) :
    base64ToBytes (bytesToBase64 v) = .ok v := by
  match v with
  | .pybytes bs =>
    have hb : ∀ x ∈ bs, x < 256 := by
      rw [jsonSafe] at h
      rw [List.all_eq_true] at h
      intro x hx
      exact of_decide_eq_true (h x hx)
    rw [bytesToBase64, base64ToBytes]
    rw [if_pos ⟨rfl, rfl⟩]
    simp only [alistGet, eq_self_iff_true, if_true]
    rw [b64Decode_b64Encode bs hb]
    rfl
  | .pydict kvs =>
    rw [jsonSafe, Bool.and_eq_true, Bool.not_eq_true'] at h
    obtain ⟨h1, h2⟩ := h
    rw [bytesToBase64, base64ToBytes]
    have hcond : ¬(hasKey (bytesToBase64KVs kvs) "__bytes__" = true
        ∧ (bytesToBase64KVs kvs).length = 1) := by
      rw [hasKey_bytesToBase64KVs, length_bytesToBase64KVs]
      intro hand
      rw [Bool.and_eq_false_iff] at h1
      cases h1 with
      | inl hfalse => rw [hand.1] at hfalse; cases hfalse
      | inr hfalse =>
        rw [hand.2] at hfalse
        simp at hfalse
    rw [if_neg hcond]
    rw [wrapUnwrapKVs kvs h2]
    rfl
  | .pylist xs =>
    rw [jsonSafe] at h
    rw [bytesToBase64, base64ToBytes]
    rw [wrapUnwrapList xs h]
    rfl
  | .pytuple xs =>
    rw [jsonSafe] at h
    rw [bytesToBase64, base64ToBytes]
    rw [wrapUnwrapList xs h]
    rfl
  | .pynone => rfl
  | .pybool b => rfl
  | .pyint n => rfl
  | .pystr s => rfl
  | .pyarr a => rfl
  | .pyobj tag f => rfl

theorem wrapUnwrapList (xs : List PyVal) (h : jsonSafeList xs = true) :
    base64ToBytesList (bytesToBase64List xs) = .ok xs := by
  match xs with
  | [] => rfl
  | x :: rest =>
    rw [jsonSafeList, Bool.and_eq_true] at h
    rw [bytesToBase64List, base64ToBytesList]
    rw [wrapUnwrapVal x h.1, wrapUnwrapList rest h.2]
    rfl

theorem wrapUnwrapKVs (kvs : List (String × PyVal)) (h : jsonSafeKVs kvs = true) :
    base64ToBytesKVs (bytesToBase64KVs kvs) = .ok kvs := by
  match kvs with
  | [] => rfl
  | (k, v) :: rest =>
    rw [jsonSafeKVs, Bool.and_eq_true] at h
    rw [bytesToBase64KVs, base64ToBytesKVs]
    rw [wrapUnwrapVal v h.1, wrapUnwrapKVs rest h.2]
    rfl

end

/-- C5: the binary-safe text layer is lossless — for every byte sequence
(lengths 0, 1 and far beyond 64 KB included) wrapping it into the
single-field `{"__bytes__": base64}` mapping and unwrapping restores the
exact original bytes, and the transform commutes with the recursive
mapping/sequence traversal on every value that does not already collide
with the marker (the spec's documented limitation). -/
theorem c5_wrap_unwrap_roundtrip (bs : List Nat) (hbs : ∀ x ∈ bs, x < 256)
    (v : PyVal) (hv : jsonSafe v = true) :
    base64ToBytes (bytesToBase64 (.pybytes bs)) = .ok (.pybytes bs)
  ∧ base64ToBytes (bytesToBase64 v) = .ok v := by
  constructor
  · apply wrapUnwrapVal
    rw [jsonSafe, List.all_eq_true]
    intro x hx
    exact decide_eq_true (hbs x hx)
  · exact wrapUnwrapVal v hv

/-- Witness for C5: a byte payload longer than 64 KB and a nested value
holding bytes inside a list inside a mapping both survive the text-layer
round trip. -/
theorem c5_wrap_unwrap_roundtrip_witness :
    base64ToBytes (bytesToBase64 (.pybytes (List.replicate 70000 65)))
      = .ok (.pybytes (List.replicate 70000 65))
  ∧ base64ToBytes (bytesToBase64
        (.pydict [("payload", .pylist [.pybytes [0], .pybytes []])]))
      = .ok (.pydict [("payload", .pylist [.pybytes [0], .pybytes []])]) := by
  apply c5_wrap_unwrap_roundtrip
  · intro x hx
    rw [List.eq_of_mem_replicate hx]
    omega
  · simp [jsonSafe, jsonSafeKVs, jsonSafeList, hasKey, alistGet]

/-- C8 counterexample: `create_rpc_response` called without payloads
carries neither data nor value, and called with both non-null payloads
carries both — so a response does not always carry exactly one of them. -/
theorem c8_exactly_one_counterexample :
    msgGet (create_rpc_response "RESULT" .pynone .pynone true none (some 5) 0)
        "data" = none
  ∧ msgGet (create_rpc_response "RESULT" .pynone .pynone true none (some 5) 0)
        "value" = none
  ∧ msgGet (create_rpc_response "R2" (.pyint 1) (.pyint 2) true none (some 5) 0)
        "data" = some (.pyint 1)
  ∧ msgGet (create_rpc_response "R2" (.pyint 1) (.pyint 2) true none (some 5) 0)
        "value" = some (.pyint 2) :=
  ⟨rfl, rfl, rfl, rfl⟩

/-- C8 amended: every response built by `create_rpc_response` sets etype
to the caller-supplied string (by convention the request's rtype), always
carries the boolean ok and the error field (null when no error is given),
and carries data exactly when a non-null data argument was supplied and
value exactly when a non-null value argument was supplied — so zero, one
or two of the payload fields may be present. -/
theorem c8_response_field_presence (etype : String) (data value : PyVal)
    (ok : Bool) (error : Option String) (ts : Option Int) (now : Int) :
    msgGet (create_rpc_response etype data value ok error ts now) "etype"
      = some (.pystr etype)
  ∧ msgGet (create_rpc_response etype data value ok error ts now) "ok"
      = some (.pybool ok)
  ∧ msgGet (create_rpc_response etype data value ok error ts now) "error"
      = some (match error with
              | some e => PyVal.pystr e
              | none => PyVal.pynone)
  ∧ msgGet (create_rpc_response etype data value ok error ts now) "data"
      = (if data.isNone then none else some data)
  ∧ msgGet (create_rpc_response etype data value ok error ts now) "value"
      = (if value.isNone then none else some value) := by
  cases hd : data.isNone <;> cases hv : value.isNone <;>
    simp [create_rpc_response, msgGet, alistGet, hd, hv]

/-- C9: for every nodes list, `add_event` and `upsert_event` produce a
message with the fixed etype tag ("ADD" / "UPSERT"), the millisecond
timestamp `tsOr ts now`, and a data payload holding the nodes as an
ordered sequence together with the target-location field (keyed "to" in
this implementation) that defaults to "children" when the caller omits
it and is the caller's string otherwise. -/
theorem c9_add_upsert_shape (nodes : List PyVal) (t : String)
    (ts : Option Int) (now : Int) :
    add_event nodes none ts now
      = .pydict [("ts", .pyint (tsOr ts now)), ("etype", .pystr "ADD"),
                 ("data", .pydict [("nodes", .pylist nodes),
                                   ("to", .pystr "children")])]
  ∧ add_event nodes (some t) ts now
      = .pydict [("ts", .pyint (tsOr ts now)), ("etype", .pystr "ADD"),
                 ("data", .pydict [("nodes", .pylist nodes),
                                   ("to", .pystr t)])]
  ∧ upsert_event nodes none ts now
      = .pydict [("ts", .pyint (tsOr ts now)), ("etype", .pystr "UPSERT"),
                 ("data", .pydict [("nodes", .pylist nodes),
                                   ("to", .pystr "children")])]
  ∧ upsert_event nodes (some t) ts now
      = .pydict [("ts", .pyint (tsOr ts now)), ("etype", .pystr "UPSERT"),
                 ("data", .pydict [("nodes", .pylist nodes),
                                   ("to", .pystr t)])] :=
  ⟨rfl, rfl, rfl, rfl⟩

theorem tsOr_zero (now : Int) : tsOr (some 0) now = now := by
  simp [tsOr]

theorem tsOr_nonzero (t now : Int) (h : t ≠ 0) : tsOr (some t) now = t := by
  simp [tsOr, h]

/-- C10: in every factory the caller timestamp is tested by truthiness
(`ts or current_timestamp()`), so an explicit timestamp of 0 is silently
replaced by the current time `now`, while any non-zero caller timestamp
is kept verbatim. -/
theorem c10_zero_timestamp_replaced (now t : Int) (hne : t ≠ 0)
    (scene data value timeout : PyVal) (nodes : List PyVal)
    (keys : List String) (etype rtype fn : String) :
    (msgGet (set_event scene (some 0) now) "ts" = some (.pyint now)
      ∧ msgGet (set_event scene (some t) now) "ts" = some (.pyint t))
  ∧ (msgGet (add_event nodes none (some 0) now) "ts" = some (.pyint now)
      ∧ msgGet (add_event nodes none (some t) now) "ts" = some (.pyint t))
  ∧ (msgGet (update_event nodes (some 0) now) "ts" = some (.pyint now)
      ∧ msgGet (update_event nodes (some t) now) "ts" = some (.pyint t))
  ∧ (msgGet (upsert_event nodes none (some 0) now) "ts" = some (.pyint now)
      ∧ msgGet (upsert_event nodes none (some t) now) "ts" = some (.pyint t))
  ∧ (msgGet (remove_event keys (some 0) now) "ts" = some (.pyint now)
      ∧ msgGet (remove_event keys (some t) now) "ts" = some (.pyint t))
  ∧ (msgGet (timeout_event timeout fn (some 0) now) "ts" = some (.pyint now)
      ∧ msgGet (timeout_event timeout fn (some t) now) "ts" = some (.pyint t))
  ∧ (msgGet (create_client_event etype value none none (some 0) now) "ts"
        = some (.pyint now)
      ∧ msgGet (create_client_event etype value none none (some t) now) "ts"
        = some (.pyint t))
  ∧ (msgGet (create_server_event etype data (some 0) now) "ts"
        = some (.pyint now)
      ∧ msgGet (create_server_event etype data (some t) now) "ts"
        = some (.pyint t))
  ∧ (msgGet (create_rpc_request etype rtype none none none (some 0) now) "ts"
        = some (.pyint now)
      ∧ msgGet (create_rpc_request etype rtype none none none (some t) now)
          "ts" = some (.pyint t))
  ∧ (msgGet (create_rpc_response etype data value true none (some 0) now) "ts"
        = some (.pyint now)
      ∧ msgGet (create_rpc_response etype data value true none (some t) now)
          "ts" = some (.pyint t)) := by
  have h0 := tsOr_zero now
  have ht := tsOr_nonzero t now hne
  refine ⟨⟨?_, ?_⟩, ⟨?_, ?_⟩, ⟨?_, ?_⟩, ⟨?_, ?_⟩, ⟨?_, ?_⟩, ⟨?_, ?_⟩,
    ⟨?_, ?_⟩, ⟨?_, ?_⟩, ⟨?_, ?_⟩, ⟨?_, ?_⟩⟩ <;>
    simp [set_event, add_event, update_event, upsert_event, remove_event,
      timeout_event, create_client_event, create_server_event,
      create_rpc_request, create_rpc_response, msgGet, alistGet, h0, ht]

/-- Witness for C10: at `now` 99 and caller timestamp 7, every factory
replaces an explicit 0 by 99 and keeps 7 verbatim. -/
theorem c10_zero_timestamp_replaced_witness :
    (msgGet (set_event .pynone (some 0) 99) "ts" = some (.pyint 99)
      ∧ msgGet (set_event .pynone (some 7) 99) "ts" = some (.pyint 7))
  ∧ (msgGet (add_event [] none (some 0) 99) "ts" = some (.pyint 99)
      ∧ msgGet (add_event [] none (some 7) 99) "ts" = some (.pyint 7))
  ∧ (msgGet (update_event [] (some 0) 99) "ts" = some (.pyint 99)
      ∧ msgGet (update_event [] (some 7) 99) "ts" = some (.pyint 7))
  ∧ (msgGet (upsert_event [] none (some 0) 99) "ts" = some (.pyint 99)
      ∧ msgGet (upsert_event [] none (some 7) 99) "ts" = some (.pyint 7))
  ∧ (msgGet (remove_event [] (some 0) 99) "ts" = some (.pyint 99)
      ∧ msgGet (remove_event [] (some 7) 99) "ts" = some (.pyint 7))
  ∧ (msgGet (timeout_event .pynone "f" (some 0) 99) "ts" = some (.pyint 99)
      ∧ msgGet (timeout_event .pynone "f" (some 7) 99) "ts" = some (.pyint 7))
  ∧ (msgGet (create_client_event "E" .pynone none none (some 0) 99) "ts"
        = some (.pyint 99)
      ∧ msgGet (create_client_event "E" .pynone none none (some 7) 99) "ts"
        = some (.pyint 7))
  ∧ (msgGet (create_server_event "E" .pynone (some 0) 99) "ts"
        = some (.pyint 99)
      ∧ msgGet (create_server_event "E" .pynone (some 7) 99) "ts"
        = some (.pyint 7))
  ∧ (msgGet (create_rpc_request "E" "R" none none none (some 0) 99) "ts"
        = some (.pyint 99)
      ∧ msgGet (create_rpc_request "E" "R" none none none (some 7) 99) "ts"
        = some (.pyint 7))
  ∧ (msgGet (create_rpc_response "E" .pynone .pynone true none (some 0) 99)
        "ts" = some (.pyint 99)
      ∧ msgGet (create_rpc_response "E" .pynone .pynone true none (some 7) 99)
          "ts" = some (.pyint 7)) :=
  c10_zero_timestamp_replaced 99 7 (by decide) .pynone .pynone .pynone .pynone
    [] [] "E" "R" "f"
